import Mathlib

/-!
Verification of the Train/Evaluate/Checkpoint core of the Pytorch-Tutorial
repository, as a shallow embedding in Lean 4.

The repository's own logic is the orchestration in the notebook cells:
the training loop (notebook 3), the evaluation loop (notebook 3), the
checkpoint save/load cells (notebook 4), and the model construction code
(LeNet in notebook 3, SimpleNet in notebook 2).  The external numerical
library (tensor ops, autograd, the Adam update, serialization) appears as
explicitly-passed collaborator functions or as definitions modelled from
the specification where the library's contract is what the spec states.
-/

namespace PT

/-! ## Tensors and state dicts (checkpoint data model)

A tensor for the checkpoint claims is a shape together with its flat
payload; "bit-identical" parameter values are modelled as equality of the
payload lists. -/

structure Tensor where
  shape : List Nat
  payload : List Rat
deriving DecidableEq, Repr

/-- A state dict: named parameter tensors in registration order
(the result of the library's state_dict()). -/
abbrev StateDict : Type := List (String × Tensor)

/-- A model, for checkpointing purposes: its ordered named Parameter Set. -/
structure Model where
  params : List (String × Tensor)
deriving DecidableEq

/-- state_dict() on a module: the named parameters. -/
def stateDict (m : Model) : StateDict := m.params

/-- An optimizer, for checkpointing purposes: its internal state dict. -/
structure Optim where
  state : List (String × Tensor)
deriving DecidableEq

/-- state_dict() on an optimizer. -/
def optStateDict (o : Optim) : StateDict := o.state

/-! ## The Checkpoint Record and the state-only save cell

Notebook 4's state-only save cell builds the Python dict
state = {'epoch': 30, 'state_dict': model.state_dict(),
         'optimizer': optimizer.state_dict()} and calls torch.save. -/

/-- A value stored under one key of a Checkpoint Record. -/
inductive CheckVal where
  | vnat : Nat → CheckVal
  | vdict : StateDict → CheckVal
deriving DecidableEq

/-- A Checkpoint Record: a string-keyed mapping. -/
abbrev CheckpointRecord : Type := List (String × CheckVal)

/-- The state-only save cell of notebook 4: builds the Checkpoint Record
    from the epoch counter, the model's state dict and the optimizer's
    state dict (the notebook uses the literal epoch value 30). -/
def saveState (epoch : Nat) (m : Model) (o : Optim) : CheckpointRecord :=
  [("epoch", CheckVal.vnat epoch),
   ("state_dict", CheckVal.vdict (stateDict m)),
   ("optimizer", CheckVal.vdict (optStateDict o))]

/-- The persistent store torch.save writes into: path-keyed records. -/
abbrev FileStore : Type := List (String × CheckpointRecord)

/-- Modelled from the spec: torch.save — persists a Checkpoint Record under
    a file path given as a configuration string (an opaque byte stream
    understood by the paired load routine). -/
def torchSave (path : String) (rec : CheckpointRecord) (fs : FileStore) : FileStore :=
  (path, rec) :: fs

/-- Modelled from the spec: torch.load — reads back the Checkpoint Record
    persisted under the given path. -/
def torchLoad (path : String) (fs : FileStore) : Option CheckpointRecord :=
  List.lookup path fs

/-! ## Loading a state dict into a model

load_state_dict is the external library's load routine; only its call
sites are in the repository. -/

/-- The Boolean compatibility check between a target model's parameters and
    an incoming state dict: every named parameter of the model is present in
    the dict with the same shape, and the dict has no key the model lacks. -/
def dictCompatible (ps : List (String × Tensor)) (sd : StateDict) : Bool :=
  ps.all (fun p =>
    match List.lookup p.1 sd with
    | some u => decide (u.shape = p.2.shape)
    | none => false)
  && sd.all (fun q => (List.lookup q.1 ps).isSome)

/-- Modelled from the spec: the library's Module.load_state_dict.  Given a
    Checkpoint Record's parameter dict and a freshly constructed model,
    copies parameter values field-by-field by name; fails (raises a loading
    error) if a named parameter is missing, has a shape mismatch, or the key
    set does not exactly match the target's expectations. -/
def loadStateDict (m : Model) (sd : StateDict) : Except String Model :=
  if dictCompatible m.params sd then
    Except.ok ⟨m.params.map (fun p =>
      (p.1, (List.lookup p.1 sd).getD p.2))⟩
  else
    Except.error "Error in loading state_dict"

/-- Running the notebook's load cell `model.load_state_dict(sd)` as a state
    transition: on success the model is replaced, on a raised error the
    model object is left as it was; the second component reports the raised
    error, if any. -/
def runLoadCell (m : Model) (sd : StateDict) : Model × Option String :=
  match loadStateDict m sd with
  | Except.ok m2 => (m2, none)
  | Except.error e => (m, some e)

/-- Architecture of a model: its parameter names with their shapes, in
    registration order. -/
def archOf (m : Model) : List (String × List Nat) :=
  m.params.map (fun p => (p.1, p.2.shape))

/-- Two models are architecturally identical when they declare the same
    named parameters with the same shapes in the same order. -/
def sameArchitecture (m₁ m₂ : Model) : Prop := archOf m₁ = archOf m₂

/-- A well-formed module has distinct parameter names (they come from a
    Python dict, so duplicates are impossible). -/
def wellFormed (m : Model) : Prop := (m.params.map Prod.fst).Nodup

/-! Auxiliary lookup lemmas. -/

theorem lookup_cons_self {α : Type} [BEq α] [LawfulBEq α] {β : Type} (k : α) (v : β)
    (l : List (α × β)) : List.lookup k ((k, v) :: l) = some v := by
  simp [List.lookup]

theorem mem_of_lookup_eq_some {α : Type} [BEq α] [LawfulBEq α] {β : Type}
    {l : List (α × β)} {n : α} {u : β}
    (h : List.lookup n l = some u) : (n, u) ∈ l := by
  induction l with
  | nil => simp [List.lookup] at h
  | cons p rest ih =>
    rw [List.lookup] at h
    by_cases hn : n = p.1
    · subst hn
      simp at h
      subst h
      exact List.mem_cons_self _ _
    · rw [show (n == p.1) = false from beq_eq_false_iff_ne.mpr hn] at h
      exact List.mem_cons_of_mem _ (ih h)

theorem lookup_eq_none_of_not_mem {α : Type} [BEq α] [LawfulBEq α] {β : Type}
    {l : List (α × β)} {n : α}
    (h : n ∉ l.map Prod.fst) : List.lookup n l = none := by
  induction l with
  | nil => simp [List.lookup]
  | cons p rest ih =>
    rw [List.lookup]
    simp only [List.map_cons, List.mem_cons] at h
    push_neg at h
    rw [show (n == p.1) = false from beq_eq_false_iff_ne.mpr h.1]
    exact ih h.2

/-- In a list with distinct keys, every member is found by lookup. -/
theorem lookup_of_mem_nodup {α : Type} [BEq α] [LawfulBEq α] {β : Type}
    {l : List (α × β)} {n : α} {u : β}
    (hnd : (l.map Prod.fst).Nodup) (hmem : (n, u) ∈ l) :
    List.lookup n l = some u := by
  induction l with
  | nil => simp at hmem
  | cons p rest ih =>
    simp only [List.map_cons, List.nodup_cons] at hnd
    rcases List.mem_cons.mp hmem with h | h
    · rw [show p = (n, u) from h.symm]
      simp [List.lookup]
    · have hne : n ≠ p.1 := by
        intro hn
        apply hnd.1
        rw [← hn]
        exact List.mem_map.mpr ⟨(n, u), h, rfl⟩
      rw [List.lookup, show (n == p.1) = false from beq_eq_false_iff_ne.mpr hne]
      exact ih hnd.2 h

theorem lookup_isSome_of_mem_keys {α : Type} [BEq α] [LawfulBEq α] {β : Type}
    {l : List (α × β)} {n : α}
    (h : n ∈ l.map Prod.fst) : (List.lookup n l).isSome = true := by
  induction l with
  | nil => simp at h
  | cons p rest ih =>
    rw [List.lookup]
    by_cases hn : n = p.1
    · rw [show (n == p.1) = true from beq_iff_eq.mpr hn]
      rfl
    · rw [show (n == p.1) = false from beq_eq_false_iff_ne.mpr hn]
      simp only [List.map_cons, List.mem_cons] at h
      exact ih (h.resolve_left hn)

/-! ## Round-trip: save then load restores the saved parameter values -/

/-- An architecturally identical fresh model passes the load-time
    compatibility check against the original model's state dict. -/
theorem compat_of_sameArch {fresh orig : Model}
    (harch : sameArchitecture fresh orig) (hwf : wellFormed orig) :
    dictCompatible fresh.params (stateDict orig) = true := by
  unfold dictCompatible
  rw [Bool.and_eq_true]
  constructor
  · rw [List.all_eq_true]
    intro p hp
    have hmemArch : (p.1, p.2.shape) ∈ archOf orig := by
      rw [← harch]
      exact List.mem_map.mpr ⟨p, hp, rfl⟩
    rcases List.mem_map.mp hmemArch with ⟨q, hq, heq⟩
    have h1 : q.1 = p.1 := congrArg (Prod.fst : String × List Nat → String) heq
    have h2 : q.2.shape = p.2.shape := congrArg (Prod.snd : String × List Nat → List Nat) heq
    have hlook : List.lookup p.1 (stateDict orig) = some q.2 := by
      rw [← h1]
      exact lookup_of_mem_nodup hwf (by simpa using hq)
    rw [hlook]
    simpa using h2
  · rw [List.all_eq_true]
    intro q hq
    apply lookup_isSome_of_mem_keys
    have hnames : fresh.params.map Prod.fst = orig.params.map Prod.fst := by
      have := congrArg (List.map Prod.fst) harch
      simpa [archOf, Function.comp] using this
    rw [hnames]
    exact List.mem_map.mpr ⟨q, hq, rfl⟩

/-- Copying field-by-field by name out of a dict that maps every original
    parameter name to its original value reconstructs the original
    parameter list, whenever the architectures agree. -/
theorem map_lookup_restore :
    ∀ (fr og sd : List (String × Tensor)),
      fr.map (fun p => (p.1, p.2.shape)) = og.map (fun p => (p.1, p.2.shape)) →
      (∀ n u, (n, u) ∈ og → List.lookup n sd = some u) →
      fr.map (fun p => (p.1, (List.lookup p.1 sd).getD p.2)) = og := by
  intro fr
  induction fr with
  | nil =>
    intro og sd harch _
    have : og = [] := by
      cases og with
      | nil => rfl
      | cons q og2 => simp at harch
    rw [this]
    rfl
  | cons p fr2 ih =>
    intro og sd harch hsd
    cases og with
    | nil => simp at harch
    | cons q og2 =>
      simp only [List.map_cons, List.cons.injEq] at harch
      have h1 : p.1 = q.1 := congrArg (Prod.fst : String × List Nat → String) harch.1
      have hlook : List.lookup p.1 sd = some q.2 := by
        rw [h1]
        exact hsd q.1 q.2 (by simp)
      simp only [List.map_cons, hlook]
      rw [List.cons.injEq]
      constructor
      · rw [Option.getD_some, h1]
      · exact ih og2 sd harch.2 (fun n u hu => hsd n u (List.mem_cons_of_mem _ hu))

/-- C2: Saving a Checkpoint Record (state-only save) and then loading it
into a freshly constructed, architecturally identical Model/Optimizer pair
yields parameter values bit-identical to the parameter values at save time:
torch.load returns exactly the saved record, its state_dict entry is the
original model's state dict, and load_state_dict succeeds producing a model
whose state dict equals the original model's state dict. -/
theorem checkpoint_roundtrip (orig fresh : Model) (opt : Optim) (epoch : Nat)
    (path : String) (fs : FileStore)
    (hwf : wellFormed orig) (harch : sameArchitecture fresh orig) :
    ∃ m' : Model,
      torchLoad path (torchSave path (saveState epoch orig opt) fs)
        = some (saveState epoch orig opt)
      ∧ List.lookup "state_dict" (saveState epoch orig opt)
        = some (CheckVal.vdict (stateDict orig))
      ∧ loadStateDict fresh (stateDict orig) = Except.ok m'
      ∧ stateDict m' = stateDict orig := by
  refine ⟨⟨orig.params⟩, ?_, ?_, ?_, rfl⟩
  · unfold torchLoad torchSave
    exact lookup_cons_self path _ fs
  · rfl
  · unfold loadStateDict
    rw [if_pos (compat_of_sameArch harch hwf)]
    congr 1
    apply Model.mk.injEq _ _ |>.mpr
    apply map_lookup_restore fresh.params orig.params (stateDict orig)
    · exact harch
    · intro n u hu
      exact lookup_of_mem_nodup hwf hu

/-- C2 witness: a concrete two-parameter model round-trips through a
state-only save and a load into a fresh architecturally identical model. -/
theorem checkpoint_roundtrip_witness :
    ∃ m' : Model,
      torchLoad "ckpt" (torchSave "ckpt"
          (saveState 30 ⟨[("w", ⟨[2], [1, 2]⟩), ("b", ⟨[1], [5]⟩)]⟩ ⟨[]⟩) [])
        = some (saveState 30 ⟨[("w", ⟨[2], [1, 2]⟩), ("b", ⟨[1], [5]⟩)]⟩ ⟨[]⟩)
      ∧ List.lookup "state_dict"
          (saveState 30 ⟨[("w", ⟨[2], [1, 2]⟩), ("b", ⟨[1], [5]⟩)]⟩ ⟨[]⟩)
        = some (CheckVal.vdict (stateDict ⟨[("w", ⟨[2], [1, 2]⟩), ("b", ⟨[1], [5]⟩)]⟩))
      ∧ loadStateDict ⟨[("w", ⟨[2], [0, 0]⟩), ("b", ⟨[1], [0]⟩)]⟩
          (stateDict ⟨[("w", ⟨[2], [1, 2]⟩), ("b", ⟨[1], [5]⟩)]⟩)
        = Except.ok m'
      ∧ stateDict m' = stateDict ⟨[("w", ⟨[2], [1, 2]⟩), ("b", ⟨[1], [5]⟩)]⟩ :=
  checkpoint_roundtrip
    ⟨[("w", ⟨[2], [1, 2]⟩), ("b", ⟨[1], [5]⟩)]⟩
    ⟨[("w", ⟨[2], [0, 0]⟩), ("b", ⟨[1], [0]⟩)]⟩
    ⟨[]⟩ 30 "ckpt" []
    (by unfold wellFormed; decide) (by unfold sameArchitecture archOf; decide)

/-! ## Load errors: mismatched checkpoints are rejected atomically -/

/-- The names appearing in a state dict. -/
def keysOf (sd : StateDict) : List String := sd.map Prod.fst

/-- The incoming dict's key set or tensor shapes do not match the target
    model: either some named parameter of the model is absent from the dict
    or present only with a different shape, or the dict carries a key the
    model does not declare. -/
def MismatchedDict (m : Model) (sd : StateDict) : Prop :=
  (∃ p ∈ m.params, ∀ u : Tensor, (p.1, u) ∈ sd → u.shape ≠ p.2.shape)
  ∨ (∃ n ∈ keysOf sd, n ∉ keysOf m.params)

/-- A mismatched dict fails the load-time compatibility check. -/
theorem compat_false_of_mismatch {m : Model} {sd : StateDict}
    (h : MismatchedDict m sd) : dictCompatible m.params sd = false := by
  rcases h with ⟨p, hp, hshape⟩ | ⟨n, hn, hnot⟩
  · unfold dictCompatible
    rw [Bool.and_eq_false_iff]
    left
    rw [List.all_eq_false]
    refine ⟨p, hp, ?_⟩
    cases hlook : List.lookup p.1 sd with
    | none => simp
    | some u =>
      have := hshape u (mem_of_lookup_eq_some hlook)
      simp [this]
  · unfold dictCompatible
    rw [Bool.and_eq_false_iff]
    right
    rw [List.all_eq_false]
    rcases List.mem_map.mp hn with ⟨q, hq, hq1⟩
    refine ⟨q, hq, ?_⟩
    rw [hq1, lookup_eq_none_of_not_mem hnot]
    simp

/-- C3: Loading a Checkpoint Record whose parameter key set or tensor
shapes do not match the target Model raises a loading error, and after the
raised error every parameter of the target Model holds exactly the value it
held before the load was attempted: the load cell returns the target model
object untouched together with a raised error. -/
theorem load_mismatch_error_atomic (m : Model) (sd : StateDict)
    (h : MismatchedDict m sd) :
    ∃ e : String, runLoadCell m sd = (m, some e) := by
  refine ⟨"Error in loading state_dict", ?_⟩
  unfold runLoadCell loadStateDict
  rw [compat_false_of_mismatch h]
  rfl

/-- C3 witness: loading a dict carrying an unexpected key into a
parameterless model raises an error and leaves the model unchanged. -/
theorem load_mismatch_error_atomic_witness :
    ∃ e : String,
      runLoadCell ⟨[]⟩ [("w", ⟨[1], [0]⟩)] = (⟨[]⟩, some e) :=
  load_mismatch_error_atomic ⟨[]⟩ [("w", ⟨[1], [0]⟩)]
    (Or.inr ⟨"w", by simp [keysOf], by simp [keysOf]⟩)

/-- C6: A state-only save produces a Checkpoint Record that is a mapping
containing at minimum the parameter values (under "state_dict"), the
optimizer internal state (under "optimizer"), and an epoch counter
(under "epoch"). -/
theorem saveState_contains_required_entries (epoch : Nat) (m : Model) (o : Optim) :
    List.lookup "epoch" (saveState epoch m o) = some (CheckVal.vnat epoch)
    ∧ List.lookup "state_dict" (saveState epoch m o)
        = some (CheckVal.vdict (stateDict m))
    ∧ List.lookup "optimizer" (saveState epoch m o)
        = some (CheckVal.vdict (optStateDict o)) :=
  ⟨rfl, rfl, rfl⟩

/-! ## The training loop of notebook 3

The loop body is
    input_data, target_data = input_data.to(device), target_data.to(device)
    output = model(input_data)
    loss = F.cross_entropy(output, target_data)
    optimizer.zero_grad()
    loss.backward()
    optimizer.step()
    if batch_ind % print_every == 0: print(train_log, ...)
inside `for epoch in range(epochs): for batch_ind, (...) in enumerate(...)`.
The external collaborators (device transfer, the model's forward, the loss
function, autograd, the Adam update) are passed in explicitly; the loop's
own contribution — the order of operations and the gradient buffer
discipline — is embedded directly.  Each operation is logged as it is
performed. -/

/-- The observable per-batch operations of the training loop. -/
inductive TrainEv where
  | moveToDevice
  | forwardProp
  | computeLoss
  | zeroGrad
  | backwardProp
  | stepUpdate
  | printProgress
deriving DecidableEq, Repr

/-- One batch yielded by the data loader: an input tensor and its integer
    labels, with matching leading dimension. -/
structure BatchData where
  input : List Rat
  target : List Nat

/-- The external collaborators called by the loop body.  Parameter and
    gradient vectors are flattened to lists of rationals. -/
structure TrainExt where
  toDevice : List Rat → List Rat
  toDeviceT : List Nat → List Nat
  forwardF : List Rat → List Rat → List Rat
  crossEntropy : List Rat → List Nat → Rat
  gradOf : List Rat → List Rat → List Nat → List Rat
  adamStep : List Rat → List Rat → List Rat → List Rat × List Rat

/-- The mutable state threaded through the loop: the model's Parameter
    Set, the optimizer's internal state, the accumulated gradient buffers
    (.grad), and the instrumentation log. -/
structure LoopState where
  params : List Rat
  optState : List Rat
  grads : List Rat
  log : List TrainEv

/-- Elementwise sum (gradient accumulation into the .grad buffers). -/
def zipAdd : List Rat → List Rat → List Rat
  | a :: as, b :: bs => (a + b) :: zipAdd as bs
  | _, _ => []

/-- The loop body for one batch, at enumeration index batchInd. -/
def trainBatch (E : TrainExt) (printEvery batchInd : Nat)
    (s : LoopState) (b : BatchData) : LoopState :=
  let input := E.toDevice b.input
  let target := E.toDeviceT b.target
  let s1 : LoopState := { s with log := s.log ++ [TrainEv.moveToDevice] }
  let output := E.forwardF s1.params input
  let s2 : LoopState := { s1 with log := s1.log ++ [TrainEv.forwardProp] }
  let loss := E.crossEntropy output target
  let s3 : LoopState := { s2 with log := s2.log ++ [TrainEv.computeLoss] }
  let s4 : LoopState := { s3 with
    grads := List.replicate s3.params.length 0,
    log := s3.log ++ [TrainEv.zeroGrad] }
  let s5 : LoopState := { s4 with
    grads := zipAdd s4.grads (E.gradOf s4.params input target),
    log := s4.log ++ [TrainEv.backwardProp] }
  let updated := E.adamStep s5.optState s5.params s5.grads
  let s6 : LoopState := { s5 with
    optState := updated.1,
    params := updated.2,
    log := s5.log ++ [TrainEv.stepUpdate] }
  if batchInd % printEvery = 0 then
    let _ := loss
    { s6 with log := s6.log ++ [TrainEv.printProgress] }
  else s6

/-- One epoch: iterate the batches with their enumeration indices,
    starting at index k (the notebook starts at 0). -/
def trainEpochFrom (E : TrainExt) (printEvery : Nat) :
    Nat → LoopState → List BatchData → LoopState
  | _, s, [] => s
  | k, s, b :: bs => trainEpochFrom E printEvery (k + 1) (trainBatch E printEvery k s b) bs

/-- The full nested loop: for epoch in range(epochs), run one epoch over
    the batches of the train data loader. -/
def trainEpochs (E : TrainExt) (printEvery : Nat) (batches : List BatchData) :
    Nat → LoopState → LoopState
  | 0, s => s
  | n + 1, s => trainEpochs E printEvery batches n (trainEpochFrom E printEvery 0 s batches)

/-- The operations the spec demands for one batch at index batchInd,
    in the stated order. -/
def perBatchEvents (printEvery batchInd : Nat) : List TrainEv :=
  [TrainEv.moveToDevice, TrainEv.forwardProp, TrainEv.computeLoss,
   TrainEv.zeroGrad, TrainEv.backwardProp, TrainEv.stepUpdate]
  ++ (if batchInd % printEvery = 0 then [TrainEv.printProgress] else [])

theorem trainBatch_log (E : TrainExt) (printEvery batchInd : Nat)
    (s : LoopState) (b : BatchData) :
    (trainBatch E printEvery batchInd s b).log
      = s.log ++ perBatchEvents printEvery batchInd := by
  by_cases h : batchInd % printEvery = 0 <;>
    simp [trainBatch, perBatchEvents, h]

theorem trainEpochFrom_log (E : TrainExt) (printEvery : Nat) :
    ∀ (bs : List BatchData) (k : Nat) (s : LoopState),
    (trainEpochFrom E printEvery k s bs).log
      = s.log ++ ((List.range bs.length).map
          (fun j => perBatchEvents printEvery (k + j))).flatten := by
  intro bs
  induction bs with
  | nil => intro k s; simp [trainEpochFrom]
  | cons b rest ih =>
    intro k s
    rw [trainEpochFrom, ih, trainBatch_log]
    rw [List.length_cons, List.range_succ_eq_map]
    simp only [List.map_cons, List.map_map, List.flatten_cons, Function.comp_def]
    rw [List.append_assoc]
    have harith : ∀ j : Nat, k + 1 + j = k + Nat.succ j := fun j => by omega
    simp only [harith, Nat.add_zero]

/-- C1: For every batch processed by the Optimizer Loop, the per-batch
steps are performed in exactly this order: (1) move the batch's tensors to
the compute device, (2) forward through the Model, (3) compute the Loss
Scalar, (4) clear the accumulated gradient state, (5) propagate gradients
backward, (6) apply one parameter update step — followed by the periodic
progress print.  The full nested loop's log is exactly the per-batch event
list repeated for every batch index of every epoch. -/
theorem training_loop_step_order (E : TrainExt) (printEvery epochs : Nat)
    (batches : List BatchData) (s : LoopState) :
    (trainEpochs E printEvery batches epochs s).log
      = s.log ++ ((List.range epochs).map (fun _ =>
          ((List.range batches.length).map
            (fun j => perBatchEvents printEvery j)).flatten)).flatten := by
  induction epochs generalizing s with
  | zero => simp [trainEpochs]
  | succ n ih =>
    rw [trainEpochs, ih, trainEpochFrom_log]
    rw [List.range_succ_eq_map]
    simp only [List.map_cons, List.map_map, List.flatten_cons, Function.comp_def]
    rw [List.append_assoc]
    simp only [Nat.zero_add]

/-! ## The evaluation loop of notebook 3

Under torch.no_grad(), per test batch:
    input_data, target_data = input_data.to(device), target_data.to(device)
    output = model(input_data)
    pred = output.argmax(dim=1)
    correct += pred.eq(target_data.view_as(pred)).sum()
    pbar.update(1)
-/

/-- argmax over one output row (dim=1), earliest greatest index. -/
def argmaxAux : List Rat → Nat → Nat → Rat → Nat
  | [], _, bi, _ => bi
  | v :: rest, i, bi, bv =>
    if bv < v then argmaxAux rest (i + 1) i v else argmaxAux rest (i + 1) bi bv

/-- argmax of a row of class scores. -/
def argmaxRow : List Rat → Nat
  | [] => 0
  | v :: rest => argmaxAux rest 1 0 v

/-- A test batch: a list of per-sample score inputs and the labels. -/
structure EvalBatch where
  input : List (List Rat)
  target : List Nat

/-- External collaborators of the evaluation loop: device transfer and the
    model's forward pass (a function of the Parameter Set). -/
structure EvalExt where
  toDevice : List (List Rat) → List (List Rat)
  toDeviceT : List Nat → List Nat
  forwardE : List Rat → List (List Rat) → List (List Rat)

/-- The state carried across test batches: the model's Parameter Set, the
    correct-prediction counter, and the progress bar position. -/
structure EvalState where
  params : List Rat
  correct : Nat
  pbar : Nat

/-- The body of the evaluation loop for one test batch. -/
def evalStep (E : EvalExt) (s : EvalState) (b : EvalBatch) : EvalState :=
  let input := E.toDevice b.input
  let target := E.toDeviceT b.target
  let output := E.forwardE s.params input
  let pred := output.map argmaxRow
  let numCorrect := (pred.zip target).countP (fun pt => pt.1 == pt.2)
  { s with correct := s.correct + numCorrect, pbar := s.pbar + 1 }

/-- The evaluation loop over the test data loader. -/
def evalLoop (E : EvalExt) (s : EvalState) (batches : List EvalBatch) : EvalState :=
  batches.foldl (evalStep E) s

/-- C8: The evaluation loop leaves the Model's Parameter Set unchanged —
after processing every test batch the parameters are exactly the ones the
loop started with; only the correct counter and the progress bar move. -/
theorem evalLoop_preserves_params (E : EvalExt) (s : EvalState)
    (batches : List EvalBatch) :
    (evalLoop E s batches).params = s.params := by
  induction batches generalizing s with
  | nil => rfl
  | cons b rest ih =>
    rw [evalLoop, List.foldl_cons]
    exact (ih (evalStep E s b)).trans rfl

/-! ## The CustomDataset class of notebook 3

    class CustomDataset(torch.utils.data.Dataset):
        def __init__(self, filename, division):
            assert division in ['train', 'test']
            with np.load(filename) as f:
                self.x, self.y = f[f'x_{dtype}'], f[f'y_{dtype}']

Notebook 3 imports sys, torch, torchvision, nn, F, optim, torch.utils.data,
transforms and tqdm, and assigns device, transform, MNIST_train, MNIST_test,
train_data_loader and test_data_loader; it never imports numpy as np and
never assigns dtype, so the body's name lookups cannot succeed. -/

/-- Python-level errors observable in the CustomDataset constructor. -/
inductive PyErr where
  | assertionError
  | nameError : String → PyErr
deriving DecidableEq, Repr

/-- The global names bound by notebook 3's cells (imports of the setup cell
    plus the variables assigned by the cells before and around the
    CustomDataset cell). -/
def notebook3Globals : List String :=
  ["sys", "torch", "torchvision", "nn", "F", "optim", "transforms", "tqdm",
   "device", "transform", "MNIST_train", "MNIST_test",
   "train_data_loader", "test_data_loader", "CustomDataset",
   "LeNet", "epochs", "print_every", "model", "optimizer", "correct"]

/-- The fields a successfully constructed CustomDataset would hold. -/
structure CustomDatasetObj where
  filename : String
  division : String

/-- CustomDataset.__init__: first the assertion on division, then the
    evaluation of np.load(filename) (a lookup of the global name np), then
    the f-string subscripts (a lookup of the global name dtype). -/
def customDatasetInit (globals : List String) (filename division : String) :
    Except PyErr CustomDatasetObj :=
  if division = "train" ∨ division = "test" then
    if "np" ∈ globals then
      if "dtype" ∈ globals then
        Except.ok ⟨filename, division⟩
      else
        Except.error (PyErr.nameError "dtype")
    else
      Except.error (PyErr.nameError "np")
  else
    Except.error PyErr.assertionError

/-- C9: Constructing a CustomDataset fails for every argument pair: a
division other than train/test trips the assertion, and a valid division
reaches the body, which raises a name error on the undefined name np (the
undefined dtype would be next); no CustomDataset instance can ever be
created in notebook 3's environment. -/
theorem customDataset_never_constructed (filename division : String) :
    customDatasetInit notebook3Globals filename division
      = Except.error (if division = "train" ∨ division = "test"
                      then PyErr.nameError "np"
                      else PyErr.assertionError) := by
  by_cases h : division = "train" ∨ division = "test"
  · rw [customDatasetInit, if_pos h, if_neg (by decide), if_pos h]
  · rw [customDatasetInit, if_neg h, if_neg h]

/-! ## Shape semantics of the forward passes

LeNet.forward (notebook 3):
    x = F.relu(self.conv1(x)); x = F.max_pool2d(x, 2, 2)
    x = F.relu(self.conv2(x)); x = F.max_pool2d(x, 2, 2)
    x = x.view(-1, 4*4*50)
    x = F.relu(self.fc1(x)); x = self.fc2(x)
    return F.log_softmax(x, dim=1)
with conv1 = Conv2d(1, 20, 5, 1), conv2 = Conv2d(20, 50, 5, 1),
fc1 = Linear(4*4*50, 500), fc2 = Linear(500, 10).

SimpleNet.forward (notebook 2):
    x = self.conv1(x); x = F.relu(x); x = self.pool1(x)
    x = x.view(-1, 64*2*2); x = self.dropout1(x); x = self.fc1(x)
with conv1 = Conv2d(3, 64, kernel_size=11, stride=4, padding=2),
pool1 = MaxPool2d(kernel_size=3, stride=2), fc1 = Linear(64*2*2, num_classes).

relu, dropout and log_softmax preserve shapes; view(-1, n) flattens to
rows of n entries, inferring the leading dimension from the element count.
-/

/-- Output size along one spatial dimension of a convolution or pooling
    window: floor((h + 2p - k)/s) + 1; the library rejects inputs whose
    window does not fit. -/
def convOutDim (h k s p : Nat) : Option Nat :=
  if h + 2 * p < k then none else some ((h + 2 * p - k) / s + 1)

/-- Shape of Conv2d(inCh, outCh, k, stride, padding) on a (B, C, H, W)
    input. -/
def conv2dShape (inCh outCh k s p : Nat) :
    Nat × Nat × Nat × Nat → Option (Nat × Nat × Nat × Nat)
  | (b, c, h, w) =>
    if c = inCh then
      match convOutDim h k s p, convOutDim w k s p with
      | some h2, some w2 => some (b, outCh, h2, w2)
      | _, _ => none
    else none

/-- Shape of MaxPool2d(k, stride) on a (B, C, H, W) input. -/
def maxPool2dShape (k s : Nat) :
    Nat × Nat × Nat × Nat → Option (Nat × Nat × Nat × Nat)
  | (b, c, h, w) =>
    match convOutDim h k s 0, convOutDim w k s 0 with
    | some h2, some w2 => some (b, c, h2, w2)
    | _, _ => none

/-- Shape of x.view(-1, n): the element count must split into rows of n,
    and the leading dimension is inferred as count / n. -/
def viewFlattenShape (n : Nat) : Nat × Nat × Nat × Nat → Option (Nat × Nat)
  | (b, c, h, w) =>
    if b * c * h * w % n = 0 then some (b * c * h * w / n, n) else none

/-- Shape of Linear(inF, outF) on a (B, F) input. -/
def linearShape (inF outF : Nat) : Nat × Nat → Option (Nat × Nat)
  | (b, f) => if f = inF then some (b, outF) else none

/-- The shape of LeNet.forward on a (B, C, H, W) input (relu and
    log_softmax preserve shapes and are omitted). -/
def leNetForwardShape (s : Nat × Nat × Nat × Nat) : Option (Nat × Nat) :=
  (conv2dShape 1 20 5 1 0 s).bind fun s1 =>
  (maxPool2dShape 2 2 s1).bind fun s2 =>
  (conv2dShape 20 50 5 1 0 s2).bind fun s3 =>
  (maxPool2dShape 2 2 s3).bind fun s4 =>
  (viewFlattenShape (4 * 4 * 50) s4).bind fun s5 =>
  (linearShape (4 * 4 * 50) 500 s5).bind fun s6 =>
  linearShape 500 10 s6

/-- The shape of SimpleNet.forward on a (B, C, H, W) input (relu and
    dropout preserve shapes and are omitted). -/
def simpleNetForwardShape (numClasses : Nat) (s : Nat × Nat × Nat × Nat) :
    Option (Nat × Nat) :=
  (conv2dShape 3 64 11 4 2 s).bind fun s1 =>
  (maxPool2dShape 3 2 s1).bind fun s2 =>
  (viewFlattenShape (64 * 2 * 2) s2).bind fun s3 =>
  linearShape (64 * 2 * 2) numClasses s3

/-- C4 counterexample: the batch (16, 1, 32, 32) is accepted by LeNet's
forward pass end to end (every layer succeeds), yet the output's leading
dimension is 25, not the batch's leading dimension 16: x.view(-1, 4*4*50)
re-folds the 16·50·5·5 elements into 25 rows of 800. -/
theorem leNet_leading_dim_not_preserved :
    leNetForwardShape (16, 1, 32, 32) = some (25, 10) ∧ (25 : Nat) ≠ 16 := by
  decide

/-- C4 (amended): for every batch of the intended input shape — 1×28×28
images for LeNet, 3×23×23 images for SimpleNet, the shapes these notebooks
feed — the output's leading dimension equals the batch's leading dimension
and the trailing dimension is the construction-time number of classes. -/
theorem forward_shape_on_intended_inputs (b : Nat) :
    leNetForwardShape (b, 1, 28, 28) = some (b, 10)
    ∧ simpleNetForwardShape 10 (b, 3, 23, 23) = some (b, 10) := by
  constructor
  · show (leNetForwardShape (b, 1, 28, 28)) = some (b, 10)
    simp only [leNetForwardShape, conv2dShape, maxPool2dShape, convOutDim,
      viewFlattenShape, linearShape]
    norm_num
    have h800 : b * 50 * 4 * 4 = b * 800 := by ring
    rw [h800, Nat.mul_mod_left]
    simp [Nat.mul_div_assoc]
  · show (simpleNetForwardShape 10 (b, 3, 23, 23)) = some (b, 10)
    simp only [simpleNetForwardShape, conv2dShape, maxPool2dShape, convOutDim,
      viewFlattenShape, linearShape]
    norm_num
    have h256 : b * 64 * 2 * 2 = b * 256 := by ring
    rw [h256, Nat.mul_mod_left]
    simp [Nat.mul_div_assoc]

/-! ## Value semantics of SimpleNet.forward (one sample)

SimpleNet carries nn.Dropout(p=0.3) between flattening and fc1.  In
training mode the library's dropout zeroes each entry chosen by a Bernoulli
mask and rescales the kept entries by 1/(1-p); in evaluation mode it is the
identity.  The mask stream is the forward pass's only stochastic input, so
it is passed explicitly.  Feature maps are total functions
channel → row → col → ℚ; the flattened activation is index → ℚ. -/

/-- The learned parameters of SimpleNet: conv1's 64×3×11×11 kernel and
    64 biases, fc1's numClasses×256 weight and biases. -/
structure SimpleNetParams where
  convW : Nat → Nat → Nat → Nat → Rat
  convB : Nat → Rat
  fcW : Nat → Nat → Rat
  fcB : Nat → Rat

/-- Zero padding of 2 around an hgt×wid image, as conv1's padding=2 reads
    it: coordinates are taken in the padded frame. -/
def padded (hgt wid : Nat) (x : Nat → Nat → Nat → Rat) (c r s : Nat) : Rat :=
  if 2 ≤ r ∧ r < hgt + 2 ∧ 2 ≤ s ∧ s < wid + 2 then x c (r - 2) (s - 2) else 0

/-- conv1 = Conv2d(3, 64, kernel_size=11, stride=4, padding=2). -/
def conv1Apply (p : SimpleNetParams) (hgt wid : Nat)
    (x : Nat → Nat → Nat → Rat) : Nat → Nat → Nat → Rat :=
  fun o i j =>
    p.convB o + ∑ c ∈ Finset.range 3, ∑ a ∈ Finset.range 11, ∑ b ∈ Finset.range 11,
      p.convW o c a b * padded hgt wid x c (4 * i + a) (4 * j + b)

/-- F.relu applied pointwise to a feature map. -/
def reluMap (x : Nat → Nat → Nat → Rat) : Nat → Nat → Nat → Rat :=
  fun c i j => max (x c i j) 0

/-- pool1 = MaxPool2d(kernel_size=3, stride=2): the greatest entry of each
    3×3 window. -/
def pool1Apply (x : Nat → Nat → Nat → Rat) : Nat → Nat → Nat → Rat :=
  fun c i j =>
    max (max (max (max (max (max (max (max
      (x c (2 * i) (2 * j)) (x c (2 * i) (2 * j + 1))) (x c (2 * i) (2 * j + 2)))
      (x c (2 * i + 1) (2 * j))) (x c (2 * i + 1) (2 * j + 1))) (x c (2 * i + 1) (2 * j + 2)))
      (x c (2 * i + 2) (2 * j))) (x c (2 * i + 2) (2 * j + 1))) (x c (2 * i + 2) (2 * j + 2))

/-- x.view(-1, 64*2*2) on one sample's (64, 2, 2) feature map: row-major
    flattening, n = c·4 + i·2 + j. -/
def flatten22 (x : Nat → Nat → Nat → Rat) : Nat → Rat :=
  fun n => x (n / 4) (n % 4 / 2) (n % 2)

/-- dropout1 = nn.Dropout(p=0.3): in training mode, entries whose mask bit
    is false are zeroed and kept entries are rescaled by 1/(1-0.3); in
    evaluation mode the input passes through unchanged. -/
def dropout1Apply (training : Bool) (mask : Nat → Bool) (v : Nat → Rat) :
    Nat → Rat :=
  fun n =>
    if training then (if mask n then v n / (1 - 3 / 10) else 0) else v n

/-- fc1 = Linear(64*2*2, numClasses). -/
def fc1Apply (p : SimpleNetParams) (v : Nat → Rat) : Nat → Rat :=
  fun k => p.fcB k + ∑ n ∈ Finset.range 256, p.fcW k n * v n

/-- SimpleNet.forward on one hgt×wid sample, in the given mode with the
    given dropout mask stream. -/
def simpleNetForward (p : SimpleNetParams) (hgt wid : Nat) (training : Bool)
    (mask : Nat → Bool) (x : Nat → Nat → Nat → Rat) : Nat → Rat :=
  fc1Apply p (dropout1Apply training mask
    (flatten22 (pool1Apply (reluMap (conv1Apply p hgt wid x)))))

/-- Parameters that make the conv stage output the constant 1 and make
    fc1 read off exactly the first dropped-out activation. -/
def probeParams : SimpleNetParams where
  convW := fun _ _ _ _ => 0
  convB := fun _ => 1
  fcW := fun k n => if k = 0 ∧ n = 0 then 1 else 0
  fcB := fun _ => 0

theorem conv1_probe (hgt wid : Nat) (x : Nat → Nat → Nat → Rat) (o i j : Nat) :
    conv1Apply probeParams hgt wid x o i j = 1 := by
  simp [conv1Apply, probeParams]

theorem forward_probe (m : Nat → Bool) :
    simpleNetForward probeParams 23 23 true m (fun _ _ _ => 0) 0
      = if m 0 then 10 / 7 else 0 := by
  unfold simpleNetForward fc1Apply
  rw [Finset.sum_eq_single 0]
  · have hflat : flatten22 (pool1Apply (reluMap
        (conv1Apply probeParams 23 23 (fun _ _ _ => 0)))) 0 = 1 := by
      unfold flatten22 pool1Apply reluMap
      simp [conv1_probe]
    rw [show probeParams.fcW 0 0 = 1 from rfl, one_mul]
    rw [show probeParams.fcB 0 = 0 from rfl, zero_add]
    unfold dropout1Apply
    rw [if_pos rfl, hflat]
    by_cases hm : m 0 = true
    · rw [if_pos hm, if_pos hm]
      norm_num
    · rw [if_neg hm, if_neg hm]
  · intro n _ hn
    have : probeParams.fcW 0 n = 0 := by
      simp [probeParams, hn]
    rw [this, zero_mul]
  · intro h
    exact absurd (Finset.mem_range.mpr (by norm_num)) h

/-- C5: In evaluation mode two successive inferences of SimpleNet on the
same input produce identical outputs (the forward pass does not read the
dropout mask stream); in training mode, with dropout active, two inferences
on the same input can differ (exhibited by masks that keep/drop the first
activation). -/
theorem eval_deterministic_train_stochastic :
    (∀ (p : SimpleNetParams) (hgt wid : Nat) (x : Nat → Nat → Nat → Rat)
       (m₁ m₂ : Nat → Bool),
       simpleNetForward p hgt wid false m₁ x = simpleNetForward p hgt wid false m₂ x)
    ∧ (∃ (p : SimpleNetParams) (hgt wid : Nat) (x : Nat → Nat → Nat → Rat)
         (m₁ m₂ : Nat → Bool),
         simpleNetForward p hgt wid true m₁ x ≠ simpleNetForward p hgt wid true m₂ x) := by
  constructor
  · intro p hgt wid x m₁ m₂
    rfl
  · refine ⟨probeParams, 23, 23, fun _ _ _ => 0, fun _ => true, fun _ => false, ?_⟩
    intro h
    have h0 := congrFun h 0
    rw [forward_probe, forward_probe] at h0
    simp at h0

/-! ## Construction of SimpleNet and LeNet: the weight re-init loop

Both __init__ methods first build their layers (the library's default
initializer fills each weight and bias with draws from its default
distribution), then run

    for m in self.modules():
        if type(m) in [..., nn.Conv2d, nn.Linear]:
            nn.init.kaiming_normal_(m.weight)
            m.bias.data.fill_(0.)

self.modules() enumerates the net itself and its layers in registration
order; the type test selects exactly the Conv2d and Linear layers, so the
loop is unrolled here over those layers in that order.  The two random
sources are passed as explicit streams: u for the default initializer's
draws and g for nn.init.kaiming_normal_'s draws (kaiming-normal values:
standard normal draws scaled by gain/sqrt(fan_in), a distributional fact
about the source that has no exact rational representation and stays with
the external library). -/

/-- A fresh tensor whose entries are consecutive draws of a stream. -/
def drawTensor (stream : Nat → Rat) (off : Nat) (shape : List Nat) : Tensor :=
  ⟨shape, (List.range shape.prod).map (fun i => stream (off + i))⟩

/-- m.bias.data.fill_(0.): an all-zero tensor of the given shape. -/
def zerosTensor (shape : List Nat) : Tensor :=
  ⟨shape, List.replicate shape.prod 0⟩

/-- The trainable pair of a Conv2d or Linear layer. -/
structure LayerPair where
  weight : Tensor
  bias : Tensor
deriving DecidableEq

/-- The body of the re-init loop for one Conv2d/Linear layer:
    nn.init.kaiming_normal_(m.weight) overwrites the weight with fresh
    draws of the kaiming source, m.bias.data.fill_(0.) zeroes the bias. -/
def reinitConvLinear (g : Nat → Rat) (off : Nat) (l : LayerPair) :
    LayerPair × Nat :=
  ({ weight := drawTensor g off l.weight.shape,
     bias := zerosTensor l.bias.shape },
   off + l.weight.shape.prod)

/-- LeNet's four parameterized layers. -/
structure LeNetModel where
  conv1 : LayerPair
  conv2 : LayerPair
  fc1 : LayerPair
  fc2 : LayerPair

/-- LeNet's layers as the library's default initializer leaves them:
    conv1 = Conv2d(1, 20, 5, 1), conv2 = Conv2d(20, 50, 5, 1),
    fc1 = Linear(4*4*50, 500), fc2 = Linear(500, 10); weights are
    [out, in, k, k] / [out, in] shaped, biases [out] shaped. -/
def leNetDefault (u : Nat → Rat) : LeNetModel where
  conv1 := { weight := drawTensor u 0 [20, 1, 5, 5],
             bias := drawTensor u 500 [20] }
  conv2 := { weight := drawTensor u 520 [50, 20, 5, 5],
             bias := drawTensor u 25520 [50] }
  fc1 := { weight := drawTensor u 25570 [500, 800],
           bias := drawTensor u 425570 [500] }
  fc2 := { weight := drawTensor u 426070 [10, 500],
           bias := drawTensor u 431070 [10] }

/-- LeNet.__init__: default construction followed by the re-init loop over
    modules() in registration order (conv1, conv2, fc1, fc2). -/
def leNetConstruct (u g : Nat → Rat) : LeNetModel :=
  let m0 := leNetDefault u
  let r1 := reinitConvLinear g 0 m0.conv1
  let r2 := reinitConvLinear g r1.2 m0.conv2
  let r3 := reinitConvLinear g r2.2 m0.fc1
  let r4 := reinitConvLinear g r3.2 m0.fc2
  { conv1 := r1.1, conv2 := r2.1, fc1 := r3.1, fc2 := r4.1 }

/-- SimpleNet's two parameterized layers (pool1 and dropout1 own none). -/
structure SimpleNetModel where
  conv1 : LayerPair
  fc1 : LayerPair

/-- SimpleNet's layers as the default initializer leaves them:
    conv1 = Conv2d(3, 64, kernel_size=11, stride=4, padding=2),
    fc1 = Linear(64*2*2, num_classes). -/
def simpleNetDefault (u : Nat → Rat) (numClasses : Nat) : SimpleNetModel where
  conv1 := { weight := drawTensor u 0 [64, 3, 11, 11],
             bias := drawTensor u 23232 [64] }
  fc1 := { weight := drawTensor u 23296 [numClasses, 256],
           bias := drawTensor u (23296 + numClasses * 256) [numClasses] }

/-- SimpleNet.__init__(num_classes): default construction followed by the
    re-init loop over modules() (conv1 then fc1). -/
def simpleNetConstruct (u g : Nat → Rat) (numClasses : Nat) : SimpleNetModel :=
  let m0 := simpleNetDefault u numClasses
  let r1 := reinitConvLinear g 0 m0.conv1
  let r2 := reinitConvLinear g r1.2 m0.fc1
  { conv1 := r1.1, fc1 := r2.1 }

/-- C10: After constructing SimpleNet or LeNet, every bias tensor of every
convolutional and linear layer equals zero, and every weight tensor of
those layers has been re-drawn by the kaiming-normal source g (at the
consecutive offsets of the loop), independently of the default
initializer's draws u. -/
theorem construction_postcondition (u g : Nat → Rat) (numClasses : Nat) :
    ((simpleNetConstruct u g numClasses).conv1.bias = zerosTensor [64]
      ∧ (simpleNetConstruct u g numClasses).fc1.bias = zerosTensor [numClasses]
      ∧ (simpleNetConstruct u g numClasses).conv1.weight
          = drawTensor g 0 [64, 3, 11, 11]
      ∧ (simpleNetConstruct u g numClasses).fc1.weight
          = drawTensor g 23232 [numClasses, 256])
    ∧ ((leNetConstruct u g).conv1.bias = zerosTensor [20]
      ∧ (leNetConstruct u g).conv2.bias = zerosTensor [50]
      ∧ (leNetConstruct u g).fc1.bias = zerosTensor [500]
      ∧ (leNetConstruct u g).fc2.bias = zerosTensor [10]
      ∧ (leNetConstruct u g).conv1.weight = drawTensor g 0 [20, 1, 5, 5]
      ∧ (leNetConstruct u g).conv2.weight = drawTensor g 500 [50, 20, 5, 5]
      ∧ (leNetConstruct u g).fc1.weight = drawTensor g 25500 [500, 800]
      ∧ (leNetConstruct u g).fc2.weight = drawTensor g 425500 [10, 500]) := by
  refine ⟨⟨rfl, rfl, rfl, ?_⟩, rfl, rfl, rfl, rfl, rfl, ?_, ?_, ?_⟩ <;>
    norm_num [drawTensor, reinitConvLinear, leNetDefault, simpleNetDefault,
      leNetConstruct, simpleNetConstruct, List.prod_cons, List.prod_nil]

end PT
